import Mathlib

/-
  Verification development for the `ui/page` contract of NativeScript
  (src/tns-core-modules/ui/page/page.d.ts).

  The repository ships only the type-declaration surface of the `Page`
  class: event-name constants, lifecycle hook signatures, modal-presentation
  methods and their documented behaviour.  No executable bodies are present,
  so the operational behaviour (driven by the external Frame navigation host
  and the modal presentation machinery) is modelled from the specification's
  words, while every name, event string, overload shape and documented
  default is taken from the declaration file itself.

  Opaque runtime values are modelled first-order:
  * pages and frames are identified by `Nat` ids;
  * the opaque `context : any` values are `Nat`;
  * callbacks (`closeCallback : Function`) are identified by `Nat` ids, and
    an invocation of a callback is recorded as a `(callbackId, args)` pair;
  * the `any[]` argument lists forwarded through close callbacks are
    `List Nat`.
-/

set_option autoImplicit false

namespace PageSpec

/-- String value used when hooking to the navigatingTo event
(page.d.ts line 184: `on(event: "navigatingTo", ...)`). -/
def navigatingToEvent : String := "navigatingTo"

/-- String value used when hooking to the navigatedTo event
(page.d.ts line 189). -/
def navigatedToEvent : String := "navigatedTo"

/-- String value used when hooking to the navigatingFrom event
(page.d.ts line 194). -/
def navigatingFromEvent : String := "navigatingFrom"

/-- String value used when hooking to the navigatedFrom event
(page.d.ts line 199). -/
def navigatedFromEvent : String := "navigatedFrom"

/-- String value used when hooking to the showingModally event
(page.d.ts line 204). -/
def showingModallyEvent : String := "showingModally"

/-- String value used when hooking to the shownModally event
(page.d.ts line 209). -/
def shownModallyEvent : String := "shownModally"

/-- A raised event, as an entry of the global event trace: the id of the
Page the event is raised on, together with the event name. -/
def TraceEntry : Type := Nat × String

/-- Splitting of a character list at every occurrence of a separator
character; the computable core of the comma-separated event-name
resolution of `on`. -/
def splitChars (sep : Char) : List Char → List (List Char)
  | [] => [[]]
  | c :: rest =>
    let r := splitChars sep rest
    if c = sep then [] :: r
    else
      match r with
      | [] => [[c]]
      | h :: t => (c :: h) :: t

/-- Modelled from the spec: `on(eventNames, callback, thisArg?)` accepts
several comma-separated event names in one registration string; dispatch
resolves the string by splitting on the comma before matching the raised
event's name (spec section 9: the callback is registered against a set of
event-name tags, resolved by parsing/splitting before dispatch). -/
def subscribesTo (eventNames : String) (e : String) : Bool :=
  (splitChars ',' eventNames.data).contains e.data

/-- The sequence of event names a listener registered (via `on`) for the
event names in `eventNames` observes for page `p` in the trace `tr`:
the events of `p` whose name the registration string covers, in trace
order. -/
def observed (eventNames : String) (p : Nat) (tr : List (Nat × String)) : List String :=
  (tr.filter (fun x => x.fst == p && subscribesTo eventNames x.snd)).map Prod.snd

/-- The registration string of a listener subscribed to all four navigation
lifecycle events. -/
def allLifecycleEvents : String :=
  "navigatingTo,navigatedTo,navigatingFrom,navigatedFrom"

/-- The registration string of a listener subscribed to both modal
lifecycle events. -/
def allModalEvents : String := "showingModally,shownModally"

/-- Modelled from the spec: the state of the navigation subsystem, whose
implementation (the Frame navigation host) is not part of the shipped
declaration file.  `frameOf p` is the (nullable) `frame` property of page
`p`; `stack f` is the navigation stack of frame `f`; `trace` is the global
sequence of raised lifecycle events, oldest first. -/
structure NavState where
  frameOf : Nat → Option Nat
  stack : Nat → List Nat
  trace : List (Nat × String)

/-- The navigation subsystem before any page has been attached: every
page's `frame` is null, every stack is empty, no event has been raised. -/
def initNav : NavState :=
  { frameOf := fun _ => none, stack := fun _ => [], trace := [] }

/-- Modelled from the spec: arrival of page `p` on the navigation host
(frame) `f`.  The Frame pushes the page on its stack, populates the page's
`frame` reference, and raises navigatingTo followed by navigatedTo on the
page.  A page that is already attached somewhere is left untouched (the
spec's lifecycle attaches only detached pages). -/
def attach (f p : Nat) (s : NavState) : NavState :=
  match s.frameOf p with
  | some _ => s
  | none =>
    { frameOf := fun q => if q = p then some f else s.frameOf q
      stack := fun g => if g = f then p :: s.stack g else s.stack g
      trace := s.trace ++ [(p, navigatingToEvent), (p, navigatedToEvent)] }

/-- Modelled from the spec: departure of page `p` from its navigation
host (pop or replace).  The Frame removes the page from its stack, clears
the page's `frame` reference, and raises navigatingFrom followed by
navigatedFrom on the page.  A page that is not attached is left
untouched. -/
def detach (p : Nat) (s : NavState) : NavState :=
  match s.frameOf p with
  | none => s
  | some f =>
    { frameOf := fun q => if q = p then none else s.frameOf q
      stack := fun g =>
        if g = f then (s.stack g).filter (fun q => q != p) else s.stack g
      trace := s.trace ++ [(p, navigatingFromEvent), (p, navigatedFromEvent)] }

/-- A command the navigation host can perform: attach a page to a frame's
stack, or detach a page from its frame. -/
inductive NavAction where
  | attachA (f p : Nat)
  | detachA (p : Nat)
deriving DecidableEq

/-- One navigation step. -/
def navStep (s : NavState) : NavAction → NavState
  | .attachA f p => attach f p s
  | .detachA p => detach p s

/-- The navigation state reached from the initial state by a sequence of
attach/detach commands. -/
def runNav (acts : List NavAction) : NavState :=
  acts.foldl navStep initNav

/-- The frame/stack invariant: a page's `frame` property points at `f`
exactly when the page sits on `f`'s navigation stack. -/
def NavInv (s : NavState) : Prop :=
  ∀ p f, s.frameOf p = some f ↔ p ∈ s.stack f

/-- The payload of the shownModally event (page.d.ts lines 35-45): the
opaque context passed to `showModal`, and the close callback the modally
shown page must invoke to terminate the modal.  The callback is identified
by the id of the `closeCallback` function the caller handed to
`showModal`; the arguments of its invocation are recorded in
`ModalState.delivered`. -/
structure ShownModallyData where
  context : Nat
  closeCallback : Nat
deriving DecidableEq

/-- Modelled from the spec: the modal-presentation state of one parent
Page, whose implementation is not part of the shipped declaration file.
`modal` is the parent's (nullable) `modal` property; `shownData` is the
shownModally payload of the active presentation (present exactly while a
modal is active); `lastShow` remembers the last shown modal page with its
context and callback, for the argumentless `showModal()` overload;
`delivered` records every `(callbackId, args)` invocation of a caller's
`closeCallback`, newest first; `trace` is the raised-event sequence,
oldest first. -/
structure ModalState where
  modal : Option Nat
  shownData : Option ShownModallyData
  lastShow : Option (Nat × Nat × Nat)
  delivered : List (Nat × List Nat)
  trace : List (Nat × String)
deriving DecidableEq

/-- The modal subsystem before any presentation. -/
def initModal : ModalState :=
  { modal := none, shownData := none, lastShow := none
    delivered := [], trace := [] }

/-- The three argument shapes of `showModal` (page.d.ts lines 211-232):
by module name, by existing Page instance — each with an opaque context, a
close callback and an optional full-screen flag — and with no arguments
at all. -/
inductive ShowModalArgs where
  | byModuleName (moduleName : String) (context : Nat) (closeCallback : Nat)
      (fullscreen : Option Bool)
  | byPage (page : Nat) (context : Nat) (closeCallback : Nat)
      (fullscreen : Option Bool)
  | noArgs
deriving DecidableEq

/-- Modelled from the spec: presenting page `p` modally with context `c`
and close callback `cb`: the parent's `modal` property starts pointing at
`p`, the shownModally payload carrying `c` and `cb` becomes active, the
presentation is remembered for the argumentless re-show overload, and
showingModally followed by shownModally is raised on `p`. -/
def present (s : ModalState) (p c cb : Nat) : ModalState :=
  { s with
    modal := some p
    shownData := some { context := c, closeCallback := cb }
    lastShow := some (p, c, cb)
    trace := s.trace ++ [(p, showingModallyEvent), (p, shownModallyEvent)] }

/-- Modelled from the spec: `showModal`.  The by-module-name overload
resolves the module to a Page through the external module loader
(`resolve`), the by-page overload shows the given instance, and the
argumentless overload re-shows the last known modal page (with its
remembered context and callback); with no last known modal page the
argumentless overload has nothing to show and fails.  On success the
returned page is the Page instance now shown modally. -/
def showModal (resolve : String → Nat) (s : ModalState) :
    ShowModalArgs → Option (ModalState × Nat)
  | .byModuleName m c cb _ => some (present s (resolve m) c cb, resolve m)
  | .byPage p c cb _ => some (present s p c cb, p)
  | .noArgs =>
    match s.lastShow with
    | some (p, c, cb) => some (present s p c cb, p)
    | none => none

/-- Modelled from the spec: the modally shown page invokes
`ShownModallyData.closeCallback` with arguments `args` to terminate the
modal.  The arguments are forwarded to the `closeCallback` the caller
supplied to `showModal` (recorded in `delivered`), and the parent's
`modal` property is cleared.  With no active presentation there is no
payload whose callback could be invoked, so nothing happens. -/
def invokeCloseCallback (args : List Nat) (s : ModalState) : ModalState :=
  match s.shownData with
  | some d =>
    { s with
      modal := none
      shownData := none
      delivered := (d.closeCallback, args) :: s.delivered }
  | none => s

/-- Modelled from the spec: `closeModal()` dismisses the currently active
modal shown by this page; the modal is terminated through its close
callback, which is invoked with no arguments.  The behaviour with no
active modal is unspecified; it is modelled as a no-op. -/
def closeModal (s : ModalState) : ModalState :=
  match s.modal with
  | some _ =>
    match s.shownData with
    | some d =>
      { s with
        modal := none
        shownData := none
        delivered := (d.closeCallback, []) :: s.delivered }
    | none => { s with modal := none }
  | none => s

/-- A command touching the modal subsystem of one parent page: a
`showModal` call, an invocation of the active shownModally payload's close
callback, or a `closeModal` call. -/
inductive ModalAction where
  | showA (args : ShowModalArgs)
  | invokeClose (args : List Nat)
  | close
deriving DecidableEq

/-- One modal step.  A failing `showModal()` (argumentless overload with
no last known modal page) leaves the state unchanged. -/
def modalStep (resolve : String → Nat) (s : ModalState) : ModalAction → ModalState
  | .showA a =>
    match showModal resolve s a with
    | some (t, _) => t
    | none => s
  | .invokeClose args => invokeCloseCallback args s
  | .close => closeModal s

/-- The modal state reached from the initial state by a sequence of
commands. -/
def runModal (resolve : String → Nat) (acts : List ModalAction) : ModalState :=
  acts.foldl (modalStep resolve) initModal

/-- Following the spec's words, independently of the model above: after
a sequence of commands, is there a modal child shown via `showModal`
whose close callback has not yet been invoked?  The pair carried through
the fold is (such a child exists, some show has ever succeeded); the
second component decides whether the argumentless re-show overload finds
a last known modal page.  Invoking the close callback — directly, or
through `closeModal`, which terminates the modal via its close
callback — ends the presentation. -/
def specModalAux (st : Bool × Bool) : ModalAction → Bool × Bool
  | .showA .noArgs => if st.snd then (true, true) else st
  | .showA _ => (true, true)
  | .invokeClose _ => (false, st.snd)
  | .close => (false, st.snd)

/-- Following the spec's words: a modal child shown via `showModal` has
not yet had its close callback invoked. -/
def specModalActive (acts : List ModalAction) : Bool :=
  (acts.foldl specModalAux (false, false)).fst

/-- Modelled from the spec: the styling state of a Page.  The declaration
file only gives `css : string` (the aggregate CSS value applied to all
nested components) and the methods that extend it. -/
structure CssState where
  css : String
deriving DecidableEq

/-- Modelled from the spec: `addCss(cssString)` adds new values to the
current css — the given string is appended to the aggregate CSS value
(no conflict/merge semantics are specified). -/
def addCss (s : CssState) (cssString : String) : CssState :=
  { s with css := s.css ++ cssString }

/-- A CSS keyframe animation descriptor.  Modelled from the spec: the
descriptor's shape is unspecified (delegated to the styling subsystem),
so only the identifying animation name is modelled. -/
structure KeyframeAnimationInfo where
  name : String
deriving DecidableEq

/-- Modelled from the spec: `getKeyframeAnimationWithName(animationName)`
returns a CSS keyframe animation with the specified name, if it exists.
The lookup source is the styling-subsystem collaborator's collection of
keyframe animations (its storage is unspecified; it is modelled as the
list of registered descriptors), searched for the first descriptor whose
name matches. -/
def getKeyframeAnimationWithName (scope : List KeyframeAnimationInfo)
    (animationName : String) : Option KeyframeAnimationInfo :=
  scope.find? (fun info => info.name == animationName)

/-- A dependency property of the declaration file
(`dependencyObservable.Property`): its registered name and the default
value a freshly constructed owner starts with. -/
structure DependencyProperty (α : Type) where
  name : String
  defaultValue : α
deriving DecidableEq

/-- The dependency property controlling swipe back navigation in iOS
(page.d.ts lines 75-79).  The declaration documents: "This property is
iOS sepecific. Default value: true". -/
def enableSwipeBackNavigationProperty : DependencyProperty Bool :=
  { name := "enableSwipeBackNavigation", defaultValue := true }

/-- Modelled from the spec: the directly stored simple properties of a
Page.  Only fields whose initial value the declaration file pins down are
given here: the `enableSwipeBackNavigation` dependency property (whose
documented default initialises the field) and the aggregate `css` value. -/
structure PageProps where
  enableSwipeBackNavigation : Bool
  css : String
deriving DecidableEq

/-- Modelled from the spec: a freshly constructed Page, before any
navigation: every dependency property holds its registered default
value. -/
def freshPage : PageProps :=
  { enableSwipeBackNavigation := enableSwipeBackNavigationProperty.defaultValue
    css := "" }

/-! ### Helper lemmas -/

theorem observed_append (ev : String) (p : Nat) (t1 t2 : List (Nat × String)) :
    observed ev p (t1 ++ t2) = observed ev p t1 ++ observed ev p t2 := by
  simp [observed, List.filter_append]

theorem subTo_navigatingTo :
    subscribesTo allLifecycleEvents navigatingToEvent = true := by decide

theorem subTo_navigatedTo :
    subscribesTo allLifecycleEvents navigatedToEvent = true := by decide

theorem subTo_navigatingFrom :
    subscribesTo allLifecycleEvents navigatingFromEvent = true := by decide

theorem subTo_navigatedFrom :
    subscribesTo allLifecycleEvents navigatedFromEvent = true := by decide

theorem subTo_showingModally :
    subscribesTo allModalEvents showingModallyEvent = true := by decide

theorem subTo_shownModally :
    subscribesTo allModalEvents shownModallyEvent = true := by decide

theorem observed_pair (ev : String) (p : Nat) (e1 e2 : String)
    (h1 : subscribesTo ev e1 = true) (h2 : subscribesTo ev e2 = true) :
    observed ev p [(p, e1), (p, e2)] = [e1, e2] := by
  simp [observed, List.filter_cons, h1, h2]

theorem attach_trace (f p : Nat) (s : NavState) (h : s.frameOf p = none) :
    (attach f p s).trace =
      s.trace ++ [(p, navigatingToEvent), (p, navigatedToEvent)] := by
  unfold attach
  rw [h]

theorem detach_trace (p f : Nat) (s : NavState) (h : s.frameOf p = some f) :
    (detach p s).trace =
      s.trace ++ [(p, navigatingFromEvent), (p, navigatedFromEvent)] := by
  unfold detach
  rw [h]

theorem navInv_initNav : NavInv initNav := by
  intro p f
  simp [initNav]

theorem navInv_attach (f p : Nat) (s : NavState) (h : NavInv s) :
    NavInv (attach f p s) := by
  unfold attach
  cases hfp : s.frameOf p with
  | some f0 => exact h
  | none =>
    intro q g
    dsimp only
    by_cases hq : q = p
    · rw [if_pos hq]
      by_cases hg : g = f
      · rw [if_pos hg, hg, hq]
        simp
      · rw [if_neg hg]
        constructor
        · intro hc
          exact absurd (Option.some.inj hc).symm hg
        · intro hc
          have h2 := (h q g).mpr hc
          rw [hq, hfp] at h2
          exact absurd h2 (by simp)
    · rw [if_neg hq]
      by_cases hg : g = f
      · rw [if_pos hg, List.mem_cons, h q g]
        constructor
        · intro hc
          exact Or.inr hc
        · intro hc
          cases hc with
          | inl he => exact absurd he hq
          | inr hm => exact hm
      · rw [if_neg hg]
        exact h q g

theorem navInv_detach (p : Nat) (s : NavState) (h : NavInv s) :
    NavInv (detach p s) := by
  unfold detach
  cases hfp : s.frameOf p with
  | none => exact h
  | some f =>
    intro q g
    dsimp only
    by_cases hq : q = p
    · rw [if_pos hq]
      constructor
      · intro hc
        exact absurd hc (by simp)
      · intro hc
        by_cases hg : g = f
        · rw [if_pos hg, List.mem_filter] at hc
          have h2 := hc.2
          rw [hq] at h2
          simp at h2
        · rw [if_neg hg] at hc
          have h2 := (h q g).mpr hc
          rw [hq, hfp] at h2
          exact absurd (Option.some.inj h2).symm hg
    · rw [if_neg hq]
      by_cases hg : g = f
      · rw [if_pos hg, List.mem_filter, h q g]
        constructor
        · intro hc
          refine ⟨hc, ?_⟩
          simp [hq]
        · intro hc
          exact hc.1
      · rw [if_neg hg]
        exact h q g

theorem navInv_navStep (s : NavState) (a : NavAction) (h : NavInv s) :
    NavInv (navStep s a) := by
  cases a with
  | attachA f p => exact navInv_attach f p s h
  | detachA p => exact navInv_detach p s h

theorem navInv_foldl :
    ∀ (acts : List NavAction) (s : NavState), NavInv s →
      NavInv (acts.foldl navStep s)
  | [], _, h => h
  | a :: rest, s, h => navInv_foldl rest (navStep s a) (navInv_navStep s a h)

theorem navInv_runNav (acts : List NavAction) : NavInv (runNav acts) :=
  navInv_foldl acts initNav navInv_initNav

theorem present_trace (s : ModalState) (p c cb : Nat) :
    (present s p c cb).trace =
      s.trace ++ [(p, showingModallyEvent), (p, shownModallyEvent)] := rfl

/-- The abstraction relation between a modal state and the
(active, ever-shown) pair carried by `specModalAux`: a modal child is
recorded in `modal` exactly when the spec says one is active, the
shownModally payload is present exactly then as well, and a last shown
modal page is remembered exactly when some show has succeeded. -/
def ModalAbs (s : ModalState) (st : Bool × Bool) : Prop :=
  s.modal.isSome = st.fst ∧ s.shownData.isSome = st.fst ∧
    s.lastShow.isSome = st.snd

theorem modalAbs_step (resolve : String → Nat) (s : ModalState)
    (st : Bool × Bool) (a : ModalAction) (h : ModalAbs s st) :
    ModalAbs (modalStep resolve s a) (specModalAux st a) := by
  obtain ⟨h1, h2, h3⟩ := h
  cases a with
  | showA args =>
    cases args with
    | byModuleName m c cb fs => exact ⟨rfl, rfl, rfl⟩
    | byPage p c cb fs => exact ⟨rfl, rfl, rfl⟩
    | noArgs =>
      cases hls : s.lastShow with
      | none =>
        have hsnd : st.snd = false := by rw [← h3, hls]; rfl
        simp only [modalStep, showModal, hls, specModalAux, hsnd, if_false]
        exact ⟨h1, h2, h3⟩
      | some t =>
        have hsnd : st.snd = true := by rw [← h3, hls]; rfl
        obtain ⟨p, c, cb⟩ := t
        simp only [modalStep, showModal, hls, specModalAux, hsnd, if_true]
        exact ⟨rfl, rfl, rfl⟩
  | invokeClose args =>
    cases hsd : s.shownData with
    | none =>
      have hfst : st.fst = false := by rw [← h2, hsd]; rfl
      simp only [modalStep, invokeCloseCallback, hsd, specModalAux]
      exact ⟨h1.trans hfst, h2.trans hfst, h3⟩
    | some d =>
      simp only [modalStep, invokeCloseCallback, hsd, specModalAux]
      exact ⟨rfl, rfl, h3⟩
  | close =>
    cases hm : s.modal with
    | none =>
      have hfst : st.fst = false := by rw [← h1, hm]; rfl
      simp only [modalStep, closeModal, hm, specModalAux]
      exact ⟨h1.trans hfst, h2.trans hfst, h3⟩
    | some p =>
      cases hsd : s.shownData with
      | none =>
        rw [hm] at h1
        rw [hsd] at h2
        rw [← h1] at h2
        exact absurd h2 (by simp)
      | some d =>
        simp only [modalStep, closeModal, hm, hsd, specModalAux]
        exact ⟨rfl, rfl, h3⟩

theorem modalAbs_foldl (resolve : String → Nat) :
    ∀ (acts : List ModalAction) (s : ModalState) (st : Bool × Bool),
      ModalAbs s st →
      ModalAbs (acts.foldl (modalStep resolve) s) (acts.foldl specModalAux st)
  | [], _, _, h => h
  | a :: rest, s, st, h =>
    modalAbs_foldl resolve rest (modalStep resolve s a) (specModalAux st a)
      (modalAbs_step resolve s st a h)

theorem modalAbs_runModal (resolve : String → Nat) (acts : List ModalAction) :
    ModalAbs (runModal resolve acts) (acts.foldl specModalAux (false, false)) :=
  modalAbs_foldl resolve acts initModal (false, false) ⟨rfl, rfl, rfl⟩

/-! ### Claim theorems -/

/-- C1: for every Page attached to a navigation host, a listener
subscribed to all lifecycle events observes, upon arrival, exactly the
sequence [navigatingTo, navigatedTo] in that order, and upon departure
exactly [navigatingFrom, navigatedFrom] in that order. -/
theorem lifecycle_event_order :
    (∀ (s : NavState) (p f : Nat), s.frameOf p = none →
      observed allLifecycleEvents p (attach f p s).trace =
        observed allLifecycleEvents p s.trace ++
          [navigatingToEvent, navigatedToEvent]) ∧
    (∀ (s : NavState) (p : Nat), s.frameOf p ≠ none →
      observed allLifecycleEvents p (detach p s).trace =
        observed allLifecycleEvents p s.trace ++
          [navigatingFromEvent, navigatedFromEvent]) := by
  constructor
  · intro s p f h
    rw [attach_trace f p s h, observed_append,
      observed_pair _ _ _ _ subTo_navigatingTo subTo_navigatedTo]
  · intro s p h
    cases hx : s.frameOf p with
    | none => exact absurd hx h
    | some f =>
      rw [detach_trace p f s hx, observed_append,
        observed_pair _ _ _ _ subTo_navigatingFrom subTo_navigatedFrom]

/-- Witness for C1: attaching page 1 to frame 0 and detaching it again,
starting from the initial navigation state. -/
theorem lifecycle_event_order_witness :
    (observed allLifecycleEvents 1 (attach 0 1 initNav).trace =
      observed allLifecycleEvents 1 initNav.trace ++
        [navigatingToEvent, navigatedToEvent]) ∧
    (observed allLifecycleEvents 1 (detach 1 (attach 0 1 initNav)).trace =
      observed allLifecycleEvents 1 (attach 0 1 initNav).trace ++
        [navigatingFromEvent, navigatedFromEvent]) :=
  ⟨lifecycle_event_order.1 initNav 1 0 rfl,
   lifecycle_event_order.2 (attach 0 1 initNav) 1 (by decide)⟩

/-- C3: a Page's `frame` property is non-null exactly when the Page is
currently part of a navigation host's stack, in every state reachable
from construction (where it is null) by attach/detach steps. -/
theorem frame_nonnull_iff_on_stack (acts : List NavAction) (p : Nat) :
    (runNav acts).frameOf p ≠ none ↔
      ∃ f, p ∈ (runNav acts).stack f := by
  have h := navInv_runNav acts
  constructor
  · intro hne
    cases hx : (runNav acts).frameOf p with
    | none => exact absurd hx hne
    | some f => exact ⟨f, (h p f).mp hx⟩
  · intro hex
    obtain ⟨f, hf⟩ := hex
    rw [(h p f).mpr hf]
    simp

/-- C2: the `modal` property of the parent Page is non-null exactly when
a modal child shown via `showModal` has not yet had its close callback
invoked, in every state reachable by show/invoke-close/closeModal
steps. -/
theorem modal_nonnull_iff_unclosed (resolve : String → Nat)
    (acts : List ModalAction) :
    (runModal resolve acts).modal ≠ none ↔ specModalActive acts = true := by
  have h := (modalAbs_runModal resolve acts).1
  rw [← Option.isSome_iff_ne_none, h, specModalActive]

/-- C4: for every modal presentation started by a successful `showModal`
call, a listener subscribed to both modal lifecycle events observes on
the presented page the showingModally event strictly before the
shownModally event. -/
theorem showingModally_before_shownModally (resolve : String → Nat)
    (s : ModalState) (a : ShowModalArgs) (s2 : ModalState) (ret : Nat)
    (h : showModal resolve s a = some (s2, ret)) :
    observed allModalEvents ret s2.trace =
      observed allModalEvents ret s.trace ++
        [showingModallyEvent, shownModallyEvent] := by
  cases a with
  | byModuleName m c cb fs =>
    simp only [showModal, Option.some.injEq, Prod.mk.injEq] at h
    obtain ⟨hs, hr⟩ := h
    rw [← hs, ← hr, present_trace, observed_append,
      observed_pair _ _ _ _ subTo_showingModally subTo_shownModally]
  | byPage p c cb fs =>
    simp only [showModal, Option.some.injEq, Prod.mk.injEq] at h
    obtain ⟨hs, hr⟩ := h
    rw [← hs, ← hr, present_trace, observed_append,
      observed_pair _ _ _ _ subTo_showingModally subTo_shownModally]
  | noArgs =>
    cases hls : s.lastShow with
    | none =>
      rw [showModal, hls] at h
      exact absurd h (by simp)
    | some t =>
      obtain ⟨p, c, cb⟩ := t
      rw [showModal, hls] at h
      simp only [Option.some.injEq, Prod.mk.injEq] at h
      obtain ⟨hs, hr⟩ := h
      rw [← hs, ← hr, present_trace, observed_append,
        observed_pair _ _ _ _ subTo_showingModally subTo_shownModally]

/-- Witness for C4: showing page 5 modally (by instance) from the
initial modal state. -/
theorem showingModally_before_shownModally_witness :
    observed allModalEvents 5 (present initModal 5 1 2).trace =
      observed allModalEvents 5 initModal.trace ++
        [showingModallyEvent, shownModallyEvent] :=
  showingModally_before_shownModally (fun _ => 0) initModal
    (.byPage 5 1 2 none) (present initModal 5 1 2) 5 rfl

/-- C5: the arguments passed when the modally shown page invokes
`ShownModallyData.closeCallback` are the ones delivered to the
`closeCallback` the caller supplied to `showModal`, for the by-module-name
overload as well as for the by-page overload: the active payload carries
the caller's context and callback, and invoking it with `args` records
the delivery of exactly `args` to that callback. -/
theorem close_arguments_round_trip :
    (∀ (resolve : String → Nat) (s : ModalState) (m : String) (c cb : Nat)
        (fs : Option Bool) (args : List Nat) (s2 : ModalState) (ret : Nat),
      showModal resolve s (.byModuleName m c cb fs) = some (s2, ret) →
      s2.shownData = some { context := c, closeCallback := cb } ∧
        (invokeCloseCallback args s2).delivered = (cb, args) :: s2.delivered) ∧
    (∀ (resolve : String → Nat) (s : ModalState) (p : Nat) (c cb : Nat)
        (fs : Option Bool) (args : List Nat) (s2 : ModalState) (ret : Nat),
      showModal resolve s (.byPage p c cb fs) = some (s2, ret) →
      s2.shownData = some { context := c, closeCallback := cb } ∧
        (invokeCloseCallback args s2).delivered = (cb, args) :: s2.delivered) := by
  constructor
  · intro resolve s m c cb fs args s2 ret h
    simp only [showModal, Option.some.injEq, Prod.mk.injEq] at h
    obtain ⟨hs, _⟩ := h
    rw [← hs]
    exact ⟨rfl, rfl⟩
  · intro resolve s p c cb fs args s2 ret h
    simp only [showModal, Option.some.injEq, Prod.mk.injEq] at h
    obtain ⟨hs, _⟩ := h
    rw [← hs]
    exact ⟨rfl, rfl⟩

/-- Witness for C5: showing page 4 modally with context 9 and close
callback 7, then invoking the payload's close callback with arguments
[3, 8]. -/
theorem close_arguments_round_trip_witness :
    (present initModal 4 9 7).shownData =
        some { context := 9, closeCallback := 7 } ∧
      (invokeCloseCallback [3, 8] (present initModal 4 9 7)).delivered =
        (7, [3, 8]) :: (present initModal 4 9 7).delivered :=
  close_arguments_round_trip.2 (fun _ => 0) initModal 4 9 7 none [3, 8]
    (present initModal 4 9 7) 4 rfl

/-- C7: `showModal` has exactly three overloads — by module name, by
existing Page instance, and with no arguments (re-showing the last known
modal page) — and every successful call returns the Page instance now
shown modally, which the caller's `modal` property then points at. -/
theorem showModal_overloads_and_result :
    (∀ a : ShowModalArgs,
      (∃ m c cb fs, a = .byModuleName m c cb fs) ∨
      (∃ p c cb fs, a = .byPage p c cb fs) ∨ a = .noArgs) ∧
    (∀ (resolve : String → Nat) (s : ModalState) (a : ShowModalArgs)
        (s2 : ModalState) (ret : Nat),
      showModal resolve s a = some (s2, ret) → s2.modal = some ret) := by
  constructor
  · intro a
    cases a with
    | byModuleName m c cb fs => exact Or.inl ⟨m, c, cb, fs, rfl⟩
    | byPage p c cb fs => exact Or.inr (Or.inl ⟨p, c, cb, fs, rfl⟩)
    | noArgs => exact Or.inr (Or.inr rfl)
  · intro resolve s a s2 ret h
    cases a with
    | byModuleName m c cb fs =>
      simp only [showModal, Option.some.injEq, Prod.mk.injEq] at h
      obtain ⟨hs, hr⟩ := h
      rw [← hs, ← hr]
      rfl
    | byPage p c cb fs =>
      simp only [showModal, Option.some.injEq, Prod.mk.injEq] at h
      obtain ⟨hs, hr⟩ := h
      rw [← hs, ← hr]
      rfl
    | noArgs =>
      cases hls : s.lastShow with
      | none =>
        rw [showModal, hls] at h
        exact absurd h (by simp)
      | some t =>
        obtain ⟨p, c, cb⟩ := t
        rw [showModal, hls] at h
        simp only [Option.some.injEq, Prod.mk.injEq] at h
        obtain ⟨hs, hr⟩ := h
        rw [← hs, ← hr]
        rfl

/-- Witness for C7: showing page 3 modally by instance from the initial
modal state; the parent's `modal` property points at the returned
page. -/
theorem showModal_overloads_and_result_witness :
    (present initModal 3 0 1).modal = some 3 :=
  showModal_overloads_and_result.2 (fun _ => 0) initModal
    (.byPage 3 0 1 none) (present initModal 3 0 1) 3 rfl

/-- C8: for every Page whose `modal` property is non-null, calling
`closeModal()` dismisses the active modal: afterwards `modal` is null. -/
theorem closeModal_clears_modal (s : ModalState) (h : s.modal ≠ none) :
    (closeModal s).modal = none := by
  cases hm : s.modal with
  | none => exact absurd hm h
  | some p =>
    rw [closeModal, hm]
    cases s.shownData with
    | none => rfl
    | some d => rfl

/-- Witness for C8: closing the modal right after page 2 was presented
modally. -/
theorem closeModal_clears_modal_witness :
    (closeModal (present initModal 2 0 0)).modal = none :=
  closeModal_clears_modal (present initModal 2 0 0) (by decide)

/-- C6: calling `addCss a` then `addCss b` appends to the aggregate css
value, so that afterwards the aggregate CSS value contains both `a` and
`b` (each occurs contiguously inside the result). -/
theorem addCss_contains_both (s : CssState) (a b : String) :
    (∃ l r, (addCss (addCss s a) b).css.data = l ++ (a.data ++ r)) ∧
    (∃ l r, (addCss (addCss s a) b).css.data = l ++ (b.data ++ r)) := by
  have hd : (addCss (addCss s a) b).css.data =
      s.css.data ++ a.data ++ b.data := by
    simp [addCss]
  constructor
  · exact ⟨s.css.data, b.data, by rw [hd, List.append_assoc]⟩
  · exact ⟨s.css.data ++ a.data, [], by rw [hd, List.append_nil]⟩

/-- C9: `getKeyframeAnimationWithName` is a total lookup: for every name
it returns either a descriptor registered in the styling scope bearing
that name, or the absent result when no registered descriptor bears that
name; there is no other outcome. -/
theorem getKeyframeAnimation_total_lookup
    (scope : List KeyframeAnimationInfo) (n : String) :
    (∃ info, getKeyframeAnimationWithName scope n = some info ∧
      info ∈ scope ∧ info.name = n) ∨
    (getKeyframeAnimationWithName scope n = none ∧
      ∀ info, info ∈ scope → info.name ≠ n) := by
  cases hx : getKeyframeAnimationWithName scope n with
  | some info =>
    refine Or.inl ⟨info, rfl, ?_, ?_⟩
    · exact List.mem_of_find?_eq_some hx
    · have hb := List.find?_some hx
      exact eq_of_beq hb
  | none =>
    refine Or.inr ⟨rfl, ?_⟩
    intro info hmem hname
    have hb := List.find?_eq_none.mp hx info hmem
    exact hb (by simp [hname])

/-- C10: a freshly constructed Page starts with the
`enableSwipeBackNavigation` dependency property at its registered default
value, which is true. -/
theorem enableSwipeBackNavigation_default :
    freshPage.enableSwipeBackNavigation =
        enableSwipeBackNavigationProperty.defaultValue ∧
      freshPage.enableSwipeBackNavigation = true :=
  ⟨rfl, rfl⟩

end PageSpec

